import Mathlib

/-!
Shallow embedding of the playback-controller state machine of
`src/majorproject.py` (class `MiniVLC`).

The GUI widgets are modelled by the state they carry:
  * `self.seek` (the position slider) — its value is `position_ms`;
  * `self.vol` (the volume slider) — its value is `vol`; a call
    `self.vol.set(x)` also fires the scale's command callback
    `self._set_volume(x)` (ttk.Scale invokes its command on every value
    change, programmatic or interactive);
  * `self.poll_job` — modelled by the Boolean `poll_armed` (whether a
    `_poll` tick is scheduled);
  * labels/status strings carry no controller state and are dropped.

The external VLC engine is an opaque collaborator: what the controller
*reads* from it in a given call (`get_state`, `get_time`, `get_length`)
is passed in as an `EngineObs` argument; the last volume the controller
*commanded* via `audio_set_volume` is recorded in `engine_volume`.
-/

namespace MiniVLC

/-- Engine playback states observed via `player.get_state()` (`vlc.State`). -/
inductive VLCState where
  | nothingSpecial
  | opening
  | buffering
  | playing
  | paused
  | stopped
  | ended
  | error
deriving DecidableEq, Repr

/-- What the engine reports when the controller polls it during one call:
`get_state()`, `get_time()` (which may return `None`), `get_length()`. -/
structure EngineObs where
  state : VLCState
  time : Option Int
  length : Int
deriving DecidableEq, Repr

/-- The controller state of `MiniVLC` (the fields set in `__init__` plus the
two stateful sliders and the last engine-commanded volume). -/
structure PlayerState where
  /-- `self.playlist`: the ordered list of media paths. -/
  playlist : List String
  /-- `self.current_index`; `-1` is the "no selection" sentinel. -/
  current_index : Int
  /-- `self.length_ms`: duration of the current media, `0` until known. -/
  length_ms : Int
  /-- The seek slider value (`self.seek`), i.e. the displayed position. -/
  position_ms : Int
  /-- Whether `self.poll_job` is scheduled. -/
  poll_armed : Bool
  /-- `self.user_dragging_seek`. -/
  user_dragging_seek : Bool
  /-- `self.muted`. -/
  muted : Bool
  /-- `self.saved_volume`. -/
  saved_volume : Int
  /-- `self.is_playing`. -/
  is_playing : Bool
  /-- The volume slider value (`self.vol`). -/
  vol : Int
  /-- Last value commanded through `player.audio_set_volume`. -/
  engine_volume : Int
deriving DecidableEq, Repr

/-- The state right after `__init__`: empty playlist, sentinel index, transport
zeroed, `saved_volume = 80`, then `self.vol.set(80); self._set_volume(80)`
(so slider, saved and engine volume all start at 80, unmuted). -/
def initState : PlayerState :=
  { playlist := []
    current_index := -1
    length_ms := 0
    position_ms := 0
    poll_armed := false
    user_dragging_seek := false
    muted := false
    saved_volume := 80
    is_playing := false
    vol := 80
    engine_volume := 80 }

/-- `self._stop_poll()`: cancel the scheduled poll job, if any. -/
def _stop_poll (s : PlayerState) : PlayerState :=
  { s with poll_armed := false }

/-- `self._start_poll()`: `_stop_poll` then schedule `_poll` after 250 ms. -/
def _start_poll (s : PlayerState) : PlayerState :=
  let s := _stop_poll s
  { s with poll_armed := true }

/-- `MiniVLC.stop`. The engine call `self.player.stop()` sits in a
`try/except Exception: pass`, so whether it raises (`engineRaises`) has no
effect on the local updates that follow: poll disarmed, seek slider and time
labels reset to 0, `length_ms = 0`, `is_playing = False`. -/
def stop (engineRaises : Bool) (s : PlayerState) : PlayerState :=
  let _ := engineRaises
  let s := _stop_poll s
  { s with position_ms := 0, length_ms := 0, is_playing := false }

/-- The duplicate-skipping insertion loop shared by `open_files`,
`open_folder` and `_on_drop`:
`for f in paths: if f not in self.playlist: self.playlist.append(f)`. -/
def addAll (acc : List String) (paths : List String) : List String :=
  paths.foldl (fun a f => if f ∈ a then a else a ++ [f]) acc

/-- `MiniVLC.open_files`, with the file-dialog result passed in as `files`.
Early return when the dialog yields nothing; otherwise append unseen paths
and, if nothing was selected and the playlist is non-empty, select index 0.
`open_folder` runs the same insertion loop and index rule on its scanned
path list; `_on_drop` likewise, except its final guard is
`if self.current_index == -1` alone — equivalent here, since it only runs
with a non-empty path list, which leaves the playlist non-empty. -/
def open_files (files : List String) (s : PlayerState) : PlayerState :=
  if files = [] then s
  else
    let s := { s with playlist := addAll s.playlist files }
    if s.current_index = -1 ∧ s.playlist ≠ [] then
      { s with current_index := 0 }
    else s

/-- One iteration of the `for idx in reversed(sel)` loop body of
`remove_selected`: if the index equals `current_index`, `self.stop()` and
clear the selection; then `del self.playlist[real]` (the selection indices
`curselection()` hands over are in range, where `del` and `List.eraseIdx`
agree). -/
def removeStep (engineRaises : Bool) (s : PlayerState) (real : Nat) : PlayerState :=
  let s :=
    if (real : Int) = s.current_index then
      { stop engineRaises s with current_index := -1 }
    else s
  { s with playlist := s.playlist.eraseIdx real }

/-- `MiniVLC.remove_selected`, with the listbox selection passed in as `sel`
(ascending, as `curselection()` returns it). Early return on empty selection;
process indices high-to-low; afterwards clamp `current_index` to
`min(current_index if current_index != -1 else 0, len(playlist) - 1)`, or the
sentinel when the playlist became empty. -/
def remove_selected (engineRaises : Bool) (sel : List Nat) (s : PlayerState) :
    PlayerState :=
  if sel = [] then s
  else
    let s := sel.reverse.foldl (removeStep engineRaises) s
    if s.playlist ≠ [] then
      let ci :=
        min (if s.current_index ≠ -1 then s.current_index else 0)
          ((s.playlist.length : Int) - 1)
      { s with current_index := ci }
    else
      { s with current_index := -1 }

/-- `MiniVLC.clear_playlist`: stop, empty the playlist, clear selection. -/
def clear_playlist (engineRaises : Bool) (s : PlayerState) : PlayerState :=
  let s := stop engineRaises s
  { s with playlist := [], current_index := -1 }

/-- `MiniVLC._load_and_play_current` (success path of the `try`): guard on an
out-of-range `current_index`; otherwise load and play the entry, set
`is_playing = True`, schedule `_update_total_length`, and `_start_poll`. -/
def _load_and_play_current (s : PlayerState) : PlayerState :=
  if s.current_index < 0 ∨ (s.playlist.length : Int) ≤ s.current_index then s
  else
    let s := { s with is_playing := true }
    _start_poll s

/-- `MiniVLC.next`: no-op on an empty playlist, else
`current_index = (current_index + 1) % len(playlist)` (Python `%` on a
positive modulus agrees with `Int.emod`) and `_load_and_play_current`. -/
def next (s : PlayerState) : PlayerState :=
  if s.playlist = [] then s
  else
    let s := { s with
      current_index := (s.current_index + 1) % (s.playlist.length : Int) }
    _load_and_play_current s

/-- `MiniVLC.prev`: no-op on an empty playlist, else
`current_index = (current_index - 1) % len(playlist)` and
`_load_and_play_current`. -/
def prev (s : PlayerState) : PlayerState :=
  if s.playlist = [] then s
  else
    let s := { s with
      current_index := (s.current_index - 1) % (s.playlist.length : Int) }
    _load_and_play_current s

/-- `MiniVLC._update_total_length`: `ms = self.player.get_length()`; when
truthy and positive, record it (and configure the slider/label); otherwise
leave state unchanged and retry on a later scheduled call. -/
def _update_total_length (obs : EngineObs) (s : PlayerState) : PlayerState :=
  if 0 < obs.length then { s with length_ms := obs.length } else s

/-- `MiniVLC._poll`: on `Ended`, `self.next()` and return (no reschedule, no
position update); otherwise, unless the user is dragging the seek slider,
write the engine position (`None` read as 0) to the slider and, while
`length_ms <= 0`, retry duration discovery; then reschedule itself. -/
def _poll (obs : EngineObs) (s : PlayerState) : PlayerState :=
  if obs.state = VLCState.ended then
    next s
  else
    let s :=
      if !s.user_dragging_seek then
        let cur := obs.time.getD 0
        let s := { s with position_ms := cur }
        if s.length_ms ≤ 0 then _update_total_length obs s else s
      else s
    { s with poll_armed := true }

/-- `MiniVLC._set_drag`: record the dragging flag; on commit, command
`player.set_time` to the slider value (an engine-side effect only). -/
def _set_drag (dragging : Bool) (commit : Bool) (s : PlayerState) : PlayerState :=
  let _ := commit
  { s with user_dragging_seek := dragging }

/-- `MiniVLC.seek_relative`: no-op while the duration is unknown
(`length_ms <= 0`); else `cur = self.player.get_time() or 0` (Python `or`
turns `None` — and 0 — into 0), clamp `cur + seconds*1000` into
`[0, length_ms - 500]` by `max(0, min(length_ms - 500, ...))`, command the
engine seek and move the slider there. -/
def seek_relative (engTime : Option Int) (seconds : Int) (s : PlayerState) :
    PlayerState :=
  if s.length_ms ≤ 0 then s
  else
    let cur := engTime.getD 0
    let new_ms := max 0 (min (s.length_ms - 500) (cur + seconds * 1000))
    { s with position_ms := new_ms }

/-- `MiniVLC._set_volume`: `v = int(float(val))` (integer inputs parse to
themselves; the `except` fallback 80 is unreachable for them), command
`player.audio_set_volume(v)` — with no clamping — and, when not muted,
persist `v` as `saved_volume`. -/
def _set_volume (val : Int) (s : PlayerState) : PlayerState :=
  let s := { s with engine_volume := val }
  if !s.muted then { s with saved_volume := val } else s

/-- `self.vol.set(x)`: move the volume slider, which fires the scale's
command callback `self._set_volume(x)`. -/
def vol_set (x : Int) (s : PlayerState) : PlayerState :=
  _set_volume x { s with vol := x }

/-- `MiniVLC._nudge_volume`: clamp `vol + delta` into `[0, 100]`, move the
slider there (firing `_set_volume`), then call `_set_volume` once more. -/
def _nudge_volume (delta : Int) (s : PlayerState) : PlayerState :=
  let v := max 0 (min 100 (s.vol + delta))
  let s := vol_set v s
  _set_volume v s

/-- `MiniVLC.toggle_mute`: flip `muted`, command the engine mute toggle; on
mute remember the slider value as `saved_volume` and drive the slider to 0;
on unmute drive the slider back to `saved_volume`. -/
def toggle_mute (s : PlayerState) : PlayerState :=
  let s := { s with muted := !s.muted }
  if s.muted then
    let s := { s with saved_volume := s.vol }
    vol_set 0 s
  else
    vol_set s.saved_volume s

end MiniVLC

namespace MiniVLC

/-! ### Field-preservation helpers -/

lemma load_fields (s : PlayerState) :
    (_load_and_play_current s).playlist = s.playlist ∧
    (_load_and_play_current s).current_index = s.current_index ∧
    (_load_and_play_current s).position_ms = s.position_ms := by
  unfold _load_and_play_current _start_poll _stop_poll
  split <;> exact ⟨rfl, rfl, rfl⟩

lemma next_playlist (s : PlayerState) : (next s).playlist = s.playlist := by
  unfold next
  split
  · rfl
  · exact (load_fields _).1

lemma next_position (s : PlayerState) : (next s).position_ms = s.position_ms := by
  unfold next
  split
  · rfl
  · exact (load_fields _).2.2

lemma next_index (s : PlayerState) (h : ¬ s.playlist = []) :
    (next s).current_index = (s.current_index + 1) % (s.playlist.length : Int) := by
  unfold next
  rw [if_neg h]
  exact (load_fields _).2.1

lemma prev_playlist (s : PlayerState) : (prev s).playlist = s.playlist := by
  unfold prev
  split
  · rfl
  · exact (load_fields _).1

lemma prev_index (s : PlayerState) (h : ¬ s.playlist = []) :
    (prev s).current_index = (s.current_index - 1) % (s.playlist.length : Int) := by
  unfold prev
  rw [if_neg h]
  exact (load_fields _).2.1

/-! ### C7: stop always converges to the stopped transport state -/

/-- Claim C7: `stop()` disarms the poll loop and resets the transport
(`length_ms = 0`, displayed position 0, `is_playing = false`) in every case;
a failure of the engine's own stop command is swallowed and changes nothing
about the local state. -/
theorem stop_resets_transport (engineRaises : Bool) (s : PlayerState) :
    (stop engineRaises s).poll_armed = false ∧
    (stop engineRaises s).length_ms = 0 ∧
    (stop engineRaises s).position_ms = 0 ∧
    (stop engineRaises s).is_playing = false ∧
    stop true s = stop false s :=
  ⟨rfl, rfl, rfl, rfl, rfl⟩

/-! ### C5: polling while dragging never moves the displayed position -/

/-- Claim C5: a `_poll` tick taken while `user_dragging_seek` is set and the
engine is not in the `Ended` state leaves the displayed position untouched. -/
theorem poll_dragging_preserves_position (obs : EngineObs) (s : PlayerState)
    (hd : s.user_dragging_seek = true) (he : ¬ obs.state = VLCState.ended) :
    (_poll obs s).position_ms = s.position_ms := by
  unfold _poll
  rw [if_neg he]
  simp [hd]

def pollObsPlaying : EngineObs :=
  { state := VLCState.playing, time := some 4000, length := 60000 }

def dragState : PlayerState :=
  { initState with user_dragging_seek := true, position_ms := 1234 }

theorem poll_dragging_preserves_position_witness :
    (_poll pollObsPlaying dragState).position_ms = dragState.position_ms :=
  poll_dragging_preserves_position pollObsPlaying dragState rfl (by decide)

/-! ### C6: Ended is routed to a single auto-advance -/

/-- Claim C6: a `_poll` tick that observes engine state `Ended` is exactly one
call to `next` (the branch returns immediately) and performs no position
update during that tick. -/
theorem poll_ended_auto_advance (obs : EngineObs) (s : PlayerState)
    (he : obs.state = VLCState.ended) :
    _poll obs s = next s ∧ (_poll obs s).position_ms = s.position_ms := by
  have h1 : _poll obs s = next s := by
    unfold _poll
    rw [if_pos he]
  exact ⟨h1, by rw [h1]; exact next_position s⟩

def pollObsEnded : EngineObs :=
  { state := VLCState.ended, time := none, length := 0 }

def endedState : PlayerState :=
  { initState with playlist := ["a", "b"], current_index := 0, position_ms := 777 }

theorem poll_ended_auto_advance_witness :
    _poll pollObsEnded endedState = next endedState ∧
    (_poll pollObsEnded endedState).position_ms = endedState.position_ms :=
  poll_ended_auto_advance pollObsEnded endedState rfl

/-! ### C10: next/prev from the sentinel index -/

/-- Claim C10: on a non-empty playlist with `current_index = -1` (sentinel),
`next` selects index 0 and `prev` selects `(N - 2) % N`, because both apply
the modulo step directly to the sentinel value. -/
theorem sentinel_next_prev (s : PlayerState)
    (h : ¬ s.playlist = []) (hi : s.current_index = -1) :
    (next s).current_index = 0 ∧
    (prev s).current_index =
      ((s.playlist.length : Int) - 2) % (s.playlist.length : Int) := by
  constructor
  · rw [next_index s h, hi]
    simp
  · rw [prev_index s h, hi]
    have h2 : (s.playlist.length : Int) - 2 = -2 + (s.playlist.length : Int) * 1 := by
      ring
    rw [h2, Int.add_mul_emod_self_left]
    norm_num

def sentinelState : PlayerState :=
  { initState with playlist := ["a", "b", "c"] }

theorem sentinel_next_prev_witness :
    (next sentinelState).current_index = 0 ∧
    (prev sentinelState).current_index =
      ((sentinelState.playlist.length : Int) - 2) %
        (sentinelState.playlist.length : Int) :=
  sentinel_next_prev sentinelState (by decide) rfl

end MiniVLC

namespace MiniVLC

/-! ### C2: seek_relative clamping -/

def shortMedia : PlayerState := { initState with length_ms := 100 }

/-- Claim C2 counterexample: with `length_ms = 100` (positive but below the
500 ms margin), position 0 and delta 0, `seek_relative` commands position 0,
which is strictly above `length_ms - 500 = -400`; so the claimed upper bound
`position ≤ length_ms - 500` fails. -/
theorem seek_relative_upper_bound_cex :
    ¬ ((seek_relative (some 0) 0 shortMedia).position_ms ≤
        shortMedia.length_ms - 500) := by
  decide

/-- Claim C2 (amended): `seek_relative` is a no-op when `length_ms ≤ 0`;
otherwise it commands `max 0 (min (length_ms - 500) (position + delta*1000))`,
which is never below 0 and — whenever `length_ms ≥ 500` — never above
`length_ms - 500`. -/
theorem seek_relative_clamps (engTime : Option Int) (delta : Int)
    (s : PlayerState) :
    (s.length_ms ≤ 0 → seek_relative engTime delta s = s) ∧
    (0 < s.length_ms →
      (seek_relative engTime delta s).position_ms =
        max 0 (min (s.length_ms - 500) (engTime.getD 0 + delta * 1000)) ∧
      0 ≤ (seek_relative engTime delta s).position_ms ∧
      (500 ≤ s.length_ms →
        (seek_relative engTime delta s).position_ms ≤ s.length_ms - 500)) := by
  constructor
  · intro h
    unfold seek_relative
    rw [if_pos h]
  · intro h
    have hn : ¬ s.length_ms ≤ 0 := not_le.mpr h
    unfold seek_relative
    rw [if_neg hn]
    refine ⟨rfl, le_max_left _ _, fun h5 => ?_⟩
    have h0 : (0 : Int) ≤ s.length_ms - 500 := by omega
    exact max_le h0 (min_le_left _ _)

def seekState : PlayerState := { initState with length_ms := 10000 }

theorem seek_relative_clamps_witness :
    (seek_relative (some 200) (-5) seekState).position_ms =
      max 0 (min (seekState.length_ms - 500)
        ((some (200 : Int)).getD 0 + -5 * 1000)) ∧
    0 ≤ (seek_relative (some 200) (-5) seekState).position_ms ∧
    (seek_relative (some 200) (-5) seekState).position_ms ≤
      seekState.length_ms - 500 := by
  have h := (seek_relative_clamps (some 200) (-5) seekState).2 (by decide)
  exact ⟨h.1, h.2.1, h.2.2 (by decide)⟩

/-! ### C9: volume clamping -/

/-- Claim C9 counterexample: `_set_volume 150` commands engine volume 150,
outside `0..100` — the function performs no clamping (and it also persists
the raw 150 as `saved_volume`). -/
theorem set_volume_no_clamp_cex :
    ¬ ((_set_volume 150 initState).engine_volume ≤ 100) := by
  decide

/-- Claim C9 (amended): `_set_volume` commands its integer argument to the
engine unclamped and, when not muted, persists that raw value as
`saved_volume`; clamping to `0..100` happens only in `_nudge_volume`, so
every volume commanded through `_nudge_volume` lies in `0..100`. -/
theorem set_volume_behaviour (v delta : Int) (s : PlayerState) :
    (_set_volume v s).engine_volume = v ∧
    (s.muted = false → (_set_volume v s).saved_volume = v) ∧
    0 ≤ (_nudge_volume delta s).engine_volume ∧
    (_nudge_volume delta s).engine_volume ≤ 100 := by
  have hval : (_nudge_volume delta s).engine_volume =
      max 0 (min 100 (s.vol + delta)) := by
    cases hm : s.muted <;> simp [_nudge_volume, vol_set, _set_volume, hm]
  refine ⟨?_, ?_, ?_, ?_⟩
  · cases hm : s.muted <;> simp [_set_volume, hm]
  · intro hm
    simp [_set_volume, hm]
  · rw [hval]
    exact le_max_left _ _
  · rw [hval]
    exact max_le (by norm_num) (min_le_left _ _)

theorem set_volume_behaviour_witness :
    (_set_volume 150 initState).engine_volume = 150 ∧
    (_set_volume 150 initState).saved_volume = 150 ∧
    0 ≤ (_nudge_volume 37 initState).engine_volume ∧
    (_nudge_volume 37 initState).engine_volume ≤ 100 := by
  have h := set_volume_behaviour 150 37 initState
  exact ⟨h.1, h.2.1 rfl, h.2.2.1, h.2.2.2⟩

/-! ### C8: mute / set volume / unmute -/

/-- Claim C8: from any unmuted state with slider value `v0`, the sequence
`toggle_mute; _set_volume 40; toggle_mute` restores slider, engine-commanded
and saved volume to `v0` (the value held immediately before the first mute),
because `_set_volume` only persists its value as `saved_volume` when not
muted. -/
theorem mute_setvolume_unmute_restores (s : PlayerState) (v0 : Int)
    (hm : s.muted = false) (hv : s.vol = v0) :
    (toggle_mute (_set_volume 40 (toggle_mute s))).vol = v0 ∧
    (toggle_mute (_set_volume 40 (toggle_mute s))).engine_volume = v0 ∧
    (toggle_mute (_set_volume 40 (toggle_mute s))).saved_volume = v0 := by
  subst hv
  simp [toggle_mute, _set_volume, vol_set, hm]

def volState : PlayerState :=
  { initState with vol := 55, saved_volume := 55, engine_volume := 55 }

theorem mute_setvolume_unmute_restores_witness :
    (toggle_mute (_set_volume 40 (toggle_mute volState))).vol = 55 ∧
    (toggle_mute (_set_volume 40 (toggle_mute volState))).engine_volume = 55 ∧
    (toggle_mute (_set_volume 40 (toggle_mute volState))).saved_volume = 55 :=
  mute_setvolume_unmute_restores volState 55 rfl rfl

/-! ### C4: removing the currently selected head entry -/

def removeScenario : PlayerState :=
  { playlist := ["A", "B", "C"], current_index := 0, length_ms := 123000,
    position_ms := 4500, poll_armed := true, user_dragging_seek := false,
    muted := false, saved_volume := 80, is_playing := true, vol := 80,
    engine_volume := 80 }

/-- Claim C4: `remove_selected {0}` on playlist `[A,B,C]` with
`current_index = 0` stops playback (poll disarmed, `length_ms = 0`,
position 0, `is_playing = false`), leaves the playlist `[B,C]` and leaves
`current_index = 0`. -/
theorem remove_current_entry_scenario :
    (remove_selected false [0] removeScenario).playlist = ["B", "C"] ∧
    (remove_selected false [0] removeScenario).current_index = 0 ∧
    (remove_selected false [0] removeScenario).is_playing = false ∧
    (remove_selected false [0] removeScenario).length_ms = 0 ∧
    (remove_selected false [0] removeScenario).position_ms = 0 ∧
    (remove_selected false [0] removeScenario).poll_armed = false := by
  decide

end MiniVLC

namespace MiniVLC

/-! ### C1: the playlist invariant over add/remove/clear sequences -/

/-- The invariant of claim C1: no duplicate paths, and `current_index` is the
sentinel `-1` or a valid in-range index. -/
def PlaylistInv (s : PlayerState) : Prop :=
  s.playlist.Nodup ∧
    (s.current_index = -1 ∨
      (0 ≤ s.current_index ∧ s.current_index < (s.playlist.length : Int)))

/-- One user-level playlist mutation, with the data each call receives from
the GUI: the chosen paths (`open_files`/`open_folder`/drop), the listbox
selection (`remove_selected`), and whether the best-effort engine stop
raised. -/
inductive PlaylistOp where
  | add (paths : List String)
  | remove (engineRaises : Bool) (sel : List Nat)
  | clear (engineRaises : Bool)

def applyOp (s : PlayerState) (op : PlaylistOp) : PlayerState :=
  match op with
  | PlaylistOp.add paths => open_files paths s
  | PlaylistOp.remove er sel => remove_selected er sel s
  | PlaylistOp.clear er => clear_playlist er s

/-- Run a sequence of playlist operations from the startup state. -/
def runOps (ops : List PlaylistOp) : PlayerState :=
  ops.foldl applyOp initState

lemma addAll_nodup : ∀ (paths acc : List String), acc.Nodup →
    (addAll acc paths).Nodup := by
  intro paths
  induction paths with
  | nil => intro acc h; exact h
  | cons f rest ih =>
    intro acc h
    unfold addAll
    simp only [List.foldl_cons]
    by_cases hf : f ∈ acc
    · rw [if_pos hf]
      exact ih acc h
    · rw [if_neg hf]
      apply ih
      simp [List.nodup_append, h, hf]

lemma addAll_length_le : ∀ (paths acc : List String),
    acc.length ≤ (addAll acc paths).length := by
  intro paths
  induction paths with
  | nil => intro acc; exact le_refl _
  | cons f rest ih =>
    intro acc
    unfold addAll
    simp only [List.foldl_cons]
    by_cases hf : f ∈ acc
    · rw [if_pos hf]
      exact ih acc
    · rw [if_neg hf]
      calc acc.length ≤ (acc ++ [f]).length := by simp
        _ ≤ _ := ih (acc ++ [f])

lemma open_files_eq (files : List String) (s : PlayerState)
    (hf : ¬ files = []) :
    open_files files s =
      if s.current_index = -1 ∧ addAll s.playlist files ≠ [] then
        { s with playlist := addAll s.playlist files, current_index := 0 }
      else { s with playlist := addAll s.playlist files } := by
  unfold open_files
  rw [if_neg hf]

lemma open_files_inv (files : List String) (s : PlayerState)
    (h : PlaylistInv s) : PlaylistInv (open_files files s) := by
  by_cases hf : files = []
  · unfold open_files
    rw [if_pos hf]
    exact h
  · rw [open_files_eq files s hf]
    have hnd : (addAll s.playlist files).Nodup := addAll_nodup files s.playlist h.1
    have hlen : s.playlist.length ≤ (addAll s.playlist files).length :=
      addAll_length_le files s.playlist
    by_cases hc : s.current_index = -1 ∧ addAll s.playlist files ≠ []
    · rw [if_pos hc]
      constructor
      · show (addAll s.playlist files).Nodup
        exact hnd
      · right
        constructor
        · show (0 : Int) ≤ 0
          exact le_refl 0
        · show (0 : Int) < ((addAll s.playlist files).length : Int)
          exact_mod_cast List.length_pos.mpr hc.2
    · rw [if_neg hc]
      constructor
      · show (addAll s.playlist files).Nodup
        exact hnd
      · show s.current_index = -1 ∨
          (0 ≤ s.current_index ∧
            s.current_index < ((addAll s.playlist files).length : Int))
        rcases h.2 with h2 | h2
        · exact Or.inl h2
        · refine Or.inr ⟨h2.1, lt_of_lt_of_le h2.2 ?_⟩
          exact_mod_cast hlen

lemma removeStep_inv (er : Bool) (s : PlayerState) (real : Nat)
    (h1 : s.playlist.Nodup)
    (h2 : s.current_index = -1 ∨ 0 ≤ s.current_index) :
    (removeStep er s real).playlist.Nodup ∧
      ((removeStep er s real).current_index = -1 ∨
        0 ≤ (removeStep er s real).current_index) := by
  unfold removeStep stop _stop_poll
  by_cases hc : (real : Int) = s.current_index
  · rw [if_pos hc]
    exact ⟨(List.eraseIdx_sublist _ _).nodup h1, Or.inl rfl⟩
  · rw [if_neg hc]
    exact ⟨(List.eraseIdx_sublist _ _).nodup h1, h2⟩

lemma removeFold_inv (er : Bool) (idxs : List Nat) :
    ∀ s : PlayerState, s.playlist.Nodup →
      (s.current_index = -1 ∨ 0 ≤ s.current_index) →
      (idxs.foldl (removeStep er) s).playlist.Nodup ∧
        ((idxs.foldl (removeStep er) s).current_index = -1 ∨
          0 ≤ (idxs.foldl (removeStep er) s).current_index) := by
  induction idxs with
  | nil => intro s h1 h2; exact ⟨h1, h2⟩
  | cons i rest ih =>
    intro s h1 h2
    simp only [List.foldl_cons]
    have h := removeStep_inv er s i h1 h2
    exact ih _ h.1 h.2

lemma remove_selected_eq (er : Bool) (sel : List Nat) (s : PlayerState)
    (hs : ¬ sel = []) (t : PlayerState)
    (ht : t = sel.reverse.foldl (removeStep er) s) :
    remove_selected er sel s =
      if t.playlist ≠ [] then
        { t with current_index := (min
            (if t.current_index ≠ -1 then t.current_index else 0)
            ((t.playlist.length : Int) - 1)) }
      else { t with current_index := -1 } := by
  subst ht
  unfold remove_selected
  rw [if_neg hs]

lemma remove_selected_inv (er : Bool) (sel : List Nat) (s : PlayerState)
    (h : PlaylistInv s) : PlaylistInv (remove_selected er sel s) := by
  by_cases hs : sel = []
  · unfold remove_selected
    rw [if_pos hs]
    exact h
  · have h2 : s.current_index = -1 ∨ 0 ≤ s.current_index := by
      rcases h.2 with h2 | h2
      · exact Or.inl h2
      · exact Or.inr h2.1
    obtain ⟨hn, hi⟩ := removeFold_inv er sel.reverse s h.1 h2
    rw [remove_selected_eq er sel s hs (sel.reverse.foldl (removeStep er) s) rfl]
    set t := sel.reverse.foldl (removeStep er) s with ht
    by_cases hne : t.playlist ≠ []
    · rw [if_pos hne]
      have hlen : (0 : Int) < (t.playlist.length : Int) := by
        exact_mod_cast List.length_pos.mpr hne
      constructor
      · show t.playlist.Nodup
        exact hn
      · right
        constructor
        · show (0 : Int) ≤ min (if t.current_index ≠ -1 then t.current_index else 0)
            ((t.playlist.length : Int) - 1)
          apply le_min _ (by omega)
          by_cases hci : t.current_index ≠ -1
          · rw [if_pos hci]
            rcases hi with hi | hi
            · exact absurd hi hci
            · exact hi
          · rw [if_neg hci]
        · show min (if t.current_index ≠ -1 then t.current_index else 0)
            ((t.playlist.length : Int) - 1) < (t.playlist.length : Int)
          exact lt_of_le_of_lt (min_le_right _ _) (by omega)
    · rw [if_neg hne]
      constructor
      · show t.playlist.Nodup
        exact hn
      · exact Or.inl rfl

lemma clear_playlist_inv (er : Bool) (s : PlayerState) :
    PlaylistInv (clear_playlist er s) :=
  ⟨List.nodup_nil, Or.inl rfl⟩

lemma applyOp_inv (s : PlayerState) (op : PlaylistOp) (h : PlaylistInv s) :
    PlaylistInv (applyOp s op) := by
  cases op with
  | add paths => exact open_files_inv paths s h
  | remove er sel => exact remove_selected_inv er sel s h
  | clear er => exact clear_playlist_inv er s

lemma foldOps_inv (ops : List PlaylistOp) :
    ∀ s : PlayerState, PlaylistInv s → PlaylistInv (ops.foldl applyOp s) := by
  induction ops with
  | nil => intro s h; exact h
  | cons op rest ih =>
    intro s h
    simp only [List.foldl_cons]
    exact ih _ (applyOp_inv s op h)

/-- Claim C1: after any sequence of add (`open_files`/`open_folder`/drop),
`remove_selected` and `clear_playlist` operations starting from the startup
state, the playlist contains no duplicate paths and `current_index` is either
the sentinel `-1` or a valid in-range index. -/
theorem playlist_invariant (ops : List PlaylistOp) : PlaylistInv (runOps ops) :=
  foldOps_inv ops initState ⟨List.nodup_nil, Or.inl rfl⟩

end MiniVLC

namespace MiniVLC

/-! ### C3: next/prev wraparound -/

lemma emod_succ_shift (a n : Int) : (a % n + 1) % n = (a + 1) % n :=
  Int.emod_add_emod a n 1

lemma emod_pred_shift (a n : Int) : (a % n - 1) % n = (a - 1) % n := by
  rw [sub_eq_add_neg, sub_eq_add_neg, Int.emod_add_emod]

lemma next_iter (s : PlayerState) (h : ¬ s.playlist = []) :
    ∀ k : Nat, (next^[k + 1] s).playlist = s.playlist ∧
      (next^[k + 1] s).current_index =
        (s.current_index + (k : Int) + 1) % (s.playlist.length : Int) := by
  intro k
  induction k with
  | zero =>
    rw [Function.iterate_one]
    refine ⟨next_playlist s, ?_⟩
    rw [next_index s h]
    norm_num
  | succ m ih =>
    obtain ⟨hp, hi⟩ := ih
    have hne : ¬ (next^[m + 1] s).playlist = [] := by
      rw [hp]; exact h
    rw [Function.iterate_succ_apply']
    constructor
    · rw [next_playlist, hp]
    · rw [next_index _ hne, hi, hp, emod_succ_shift]
      push_cast
      ring_nf

lemma prev_iter (s : PlayerState) (h : ¬ s.playlist = []) :
    ∀ k : Nat, (prev^[k + 1] s).playlist = s.playlist ∧
      (prev^[k + 1] s).current_index =
        (s.current_index - (k : Int) - 1) % (s.playlist.length : Int) := by
  intro k
  induction k with
  | zero =>
    rw [Function.iterate_one]
    refine ⟨prev_playlist s, ?_⟩
    rw [prev_index s h]
    norm_num
  | succ m ih =>
    obtain ⟨hp, hi⟩ := ih
    have hne : ¬ (prev^[m + 1] s).playlist = [] := by
      rw [hp]; exact h
    rw [Function.iterate_succ_apply']
    constructor
    · rw [prev_playlist, hp]
    · rw [prev_index _ hne, hi, hp, emod_pred_shift]
      push_cast
      ring_nf

/-- Claim C3: `next` and `prev` are no-ops on an empty playlist and otherwise
move `current_index` by +1 or -1 modulo the playlist length; consequently, from a
valid index, `next` applied N times (N the playlist length) returns
`current_index` to its starting value, and likewise `prev`. -/
theorem next_prev_wraparound (s : PlayerState) (h0 : 0 ≤ s.current_index)
    (h1 : s.current_index < (s.playlist.length : Int)) :
    (∀ t : PlayerState, t.playlist = [] → next t = t ∧ prev t = t) ∧
    (next s).current_index = (s.current_index + 1) % (s.playlist.length : Int) ∧
    (prev s).current_index = (s.current_index - 1) % (s.playlist.length : Int) ∧
    (next^[s.playlist.length] s).current_index = s.current_index ∧
    (prev^[s.playlist.length] s).current_index = s.current_index := by
  have hne : ¬ s.playlist = [] := by
    intro he
    rw [he] at h1
    simp at h1
    omega
  obtain ⟨m, hm⟩ :=
    Nat.exists_eq_succ_of_ne_zero (fun hz =>
      hne (List.length_eq_zero.mp hz))
  have hlen : (s.playlist.length : Int) = (m : Int) + 1 := by
    rw [hm]; push_cast; ring
  have hlt : s.current_index < (m : Int) + 1 := by rw [← hlen]; exact h1
  refine ⟨?_, next_index s hne, prev_index s hne, ?_, ?_⟩
  · intro t ht
    constructor
    · unfold next
      rw [if_pos ht]
    · unfold prev
      rw [if_pos ht]
  · rw [hm]
    rw [(next_iter s hne m).2, hlen]
    have hx : s.current_index + (m : Int) + 1 =
        s.current_index + ((m : Int) + 1) * 1 := by ring
    rw [hx, Int.add_mul_emod_self_left]
    exact Int.emod_eq_of_lt h0 hlt
  · rw [hm]
    rw [(prev_iter s hne m).2, hlen]
    have hx : s.current_index - (m : Int) - 1 =
        s.current_index + ((m : Int) + 1) * (-1) := by ring
    rw [hx, Int.add_mul_emod_self_left]
    exact Int.emod_eq_of_lt h0 hlt

def wrapState : PlayerState :=
  { initState with playlist := ["a", "b"], current_index := 1 }

theorem next_prev_wraparound_witness :
    (next^[wrapState.playlist.length] wrapState).current_index =
      wrapState.current_index ∧
    (prev^[wrapState.playlist.length] wrapState).current_index =
      wrapState.current_index := by
  have h := next_prev_wraparound wrapState (by decide) (by decide)
  exact ⟨h.2.2.2.1, h.2.2.2.2⟩

end MiniVLC
